import Mathlib

/-!
Verification development for the `remove-aws-resources` core
(`src/utils.ts`): pagination-aware listing routines, the task
generation layer, and the per-kind deletion protocols.

Modelling conventions:
- Provider responses are supplied as explicit page sequences (an
  oracle for the remote API); each pagination loop consumes pages in
  order and is embedded as structural recursion over that sequence,
  returning `none` when the response sequence is exhausted while the
  loop would still continue.
- Timestamps (`getTime` on parsed dates) are modelled as `Int`.
- `Array.prototype.sort` with a timestamp comparator is modelled as
  `List.insertionSort` with the corresponding descending order.
- Provider calls issued by deletion tasks and notifications emitted on
  the progress stream (`observer.next` / `observer.error` /
  `observer.complete`) are recorded as explicit traces.
-/

/-- Descending sort by an integer key, the embedding of the source
pattern `list.sort((a, b) => time(b) - time(a))`. -/
def sortByDesc {α : Type} (key : α → Int) (l : List α) : List α :=
  List.insertionSort (fun a b => key b ≤ key a) l

theorem sortByDesc_perm {α : Type} (key : α → Int) (l : List α) :
    List.Perm (sortByDesc key l) l :=
  List.perm_insertionSort _ l

/-- Character-list core of JS `String.prototype.startsWith`. -/
def strStartsWithL : List Char → List Char → Bool
  | _, [] => true
  | [], _ :: _ => false
  | c :: cs, d :: ds => c == d && strStartsWithL cs ds

/-- JS `s.startsWith(p)`, modelled over the character lists. -/
def strStartsWith (s p : String) : Bool :=
  strStartsWithL s.data p.data

/-- Lambda function record: the fields of a `listFunctions` item used
by the source (`FunctionName`, `LastModified`). -/
structure FunctionRecord where
  FunctionName : String
  LastModified : Int
deriving DecidableEq

/-- One response of `lambda.listFunctions`: the item page plus the
optional `NextMarker` continuation cursor. -/
structure LambdaPage where
  Functions : List FunctionRecord
  NextMarker : Option String
deriving DecidableEq

/-- The pagination loop of `getAllFunctions`: accumulate `Functions`
from each response; stop at the first response without `NextMarker`.
Returns `none` if the response sequence runs out first. -/
def drainLambdaPages : List LambdaPage → Option (List FunctionRecord)
  | [] => none
  | p :: rest =>
    match p.NextMarker with
    | none => some p.Functions
    | some _ => (drainLambdaPages rest).map (fun acc => p.Functions ++ acc)

/-- `getAllFunctions`: drain all pages, then sort descending by
`LastModified`. -/
def getAllFunctions (pages : List LambdaPage) : Option (List FunctionRecord) :=
  (drainLambdaPages pages).map (sortByDesc (fun f => f.LastModified))

/-- The pages actually consumed by the `getAllFunctions` loop: the
longest prefix whose earlier responses all carry `NextMarker`,
together with the terminating response. -/
def consumedLambda : List LambdaPage → List LambdaPage
  | [] => []
  | p :: rest =>
    match p.NextMarker with
    | none => [p]
    | some _ => p :: consumedLambda rest

/-- CloudWatch log group record (`logGroupName`, `creationTime`). -/
structure LogGroup where
  logGroupName : String
  creationTime : Int
deriving DecidableEq

/-- The request filter hard-coded by `getAllLogGroups`: the
`describeLogGroups` call restricts the listing to log groups whose
name starts with `/aws/`. -/
def awsFiltered (all : List LogGroup) : List LogGroup :=
  all.filter (fun g => strStartsWith g.logGroupName "/aws/")

/-- The pagination loop of `getAllLogGroups` run against an honest
provider: `describeLogGroups` pages (size 50) over the `/aws/`
filtered listing, with the continuation token modelled as the start
index of the next page; the token is absent exactly when no further
items remain. -/
def drainFrom (fl : List LogGroup) (start : Nat) : List LogGroup :=
  if _h : start + 50 < fl.length then
    (fl.drop start).take 50 ++ drainFrom fl (start + 50)
  else
    (fl.drop start).take 50
termination_by fl.length - start
decreasing_by
  omega

/-- `getAllLogGroups`: drain the `/aws/`-filtered paginated listing of
the provider state `all`, then sort descending by `creationTime`. -/
def getAllLogGroups (all : List LogGroup) : List LogGroup :=
  sortByDesc (fun g => g.creationTime) (drainFrom (awsFiltered all) 0)

/-- S3 bucket record (`Name`, `CreationDate`). -/
structure BucketRecord where
  Name : String
  CreationDate : Int
deriving DecidableEq

/-- `getAllBuckets`: a single unpaginated `listBuckets` call, sorted
descending by `CreationDate`. -/
def getAllBuckets (buckets : List BucketRecord) : List BucketRecord :=
  sortByDesc (fun b => b.CreationDate) buckets

/-- CloudFront distribution record (`Id`, `DomainName`,
`LastModifiedTime`). -/
structure DistRecord where
  Id : String
  DomainName : String
  LastModifiedTime : Int
deriving DecidableEq

/-- One `listDistributions` response: the `DistributionList` fields
`Items`, `IsTruncated` and `NextMarker` used by the source. -/
structure DistPage where
  Items : List DistRecord
  IsTruncated : Bool
  NextMarker : Option String
deriving DecidableEq

/-- The pagination loop of `getAllCloudFrontDistributions`: accumulate
`Items`; stop at the first response with `IsTruncated` false. -/
def drainDistPages : List DistPage → Option (List DistRecord)
  | [] => none
  | p :: rest =>
    if p.IsTruncated then
      (drainDistPages rest).map (fun acc => p.Items ++ acc)
    else
      some p.Items

/-- `getAllCloudFrontDistributions`: drain all pages, then sort
descending by `LastModifiedTime`. -/
def getAllCloudFrontDistributions (pages : List DistPage) : Option (List DistRecord) :=
  (drainDistPages pages).map (sortByDesc (fun d => d.LastModifiedTime))

/-- The pages actually consumed by the distribution loop. -/
def consumedDist : List DistPage → List DistPage
  | [] => []
  | p :: rest =>
    if p.IsTruncated then p :: consumedDist rest else [p]

/-- IAM role record (`RoleName`, `CreateDate`). -/
structure RoleRecord where
  RoleName : String
  CreateDate : Int
deriving DecidableEq

/-- One `listRoles` response (`Roles`, `IsTruncated`, next `Marker`). -/
structure RolePage where
  Roles : List RoleRecord
  IsTruncated : Bool
  Marker : Option String
deriving DecidableEq

/-- The pagination loop of `getAllIAMRoles`: accumulate `Roles`; stop
at the first response with `IsTruncated` false. -/
def drainRolePages : List RolePage → Option (List RoleRecord)
  | [] => none
  | p :: rest =>
    if p.IsTruncated then
      (drainRolePages rest).map (fun acc => p.Roles ++ acc)
    else
      some p.Roles

/-- The system-role filter of `getAllIAMRoles`: keep a role unless its
name starts with `AWSService` or `OrganizationAccount`. -/
def keepRole (r : RoleRecord) : Bool :=
  !(strStartsWith r.RoleName "AWSService") && !(strStartsWith r.RoleName "OrganizationAccount")

/-- `getAllIAMRoles`: drain all pages, filter out reserved system
roles, then sort descending by `CreateDate`. -/
def getAllIAMRoles (pages : List RolePage) : Option (List RoleRecord) :=
  (drainRolePages pages).map
    (fun rs => sortByDesc (fun r => r.CreateDate) (rs.filter keepRole))

/-- The pages actually consumed by the role loop. -/
def consumedRoles : List RolePage → List RolePage
  | [] => []
  | p :: rest =>
    if p.IsTruncated then p :: consumedRoles rest else [p]

/-- Progress-stream notifications: `observer.next`, `observer.error`,
`observer.complete`. -/
inductive Ev where
  | next (msg : String)
  | error (msg : String)
  | complete
deriving DecidableEq

/-- True exactly on `Ev.error` notifications (failure signals). -/
def isErrorEv : Ev → Bool
  | Ev.error _ => true
  | _ => false

/-- S3 calls issued by the bucket deletion task. Object pages carry
only the keys (the source maps each listed object to its `Key`). -/
inductive S3Call where
  | listObjects (bucket : String) (marker : Option String)
  | deleteObjects (bucket : String) (keys : List String)
  | deleteBucket (bucket : String)
deriving DecidableEq

def isListObjects : S3Call → Bool
  | S3Call.listObjects _ _ => true
  | _ => false

def isDeleteObjects : S3Call → Bool
  | S3Call.deleteObjects _ _ => true
  | _ => false

def isDeleteBucket : S3Call → Bool
  | S3Call.deleteBucket _ => true
  | _ => false

/-- One `listObjects` response: the page contents (keys) and the
truncation flag. -/
structure ObjPage where
  Contents : List String
  IsTruncated : Bool
deriving DecidableEq

/-- The object-drain loop of the bucket task, as the sequence of S3
calls it issues given the pages the provider returns: list a page;
stop if it is empty; otherwise batch-delete its keys; stop if the
page was not truncated; otherwise continue with the last key as the
next marker. `none` when the page sequence is exhausted early. -/
def drainBucket (b : String) (m : Option String) : List ObjPage → Option (List S3Call)
  | [] => none
  | p :: rest =>
    if p.Contents.isEmpty then
      some [S3Call.listObjects b m]
    else if p.IsTruncated then
      (drainBucket b (some (p.Contents.getLast?.getD "")) rest).map
        (fun t => S3Call.listObjects b m :: S3Call.deleteObjects b p.Contents :: t)
    else
      some [S3Call.listObjects b m, S3Call.deleteObjects b p.Contents]

/-- The full per-bucket call sequence of the bucket task: drain the
objects, then issue the single `deleteBucket` call. -/
def bucketTaskCalls (b : String) (pages : List ObjPage) : Option (List S3Call) :=
  (drainBucket b none pages).map (fun t => t ++ [S3Call.deleteBucket b])

/-- The lambda task body: for each function name, notify progress and
issue `deleteFunction` (outcome given by the oracle `del`). Returns
the emitted notifications and the names actually attempted. A
rejected call stops the async body with no further notification: in
the source the rejection is not caught and `observer.error` is never
invoked for this task. -/
def lambdaTaskRun (del : String → Except String Unit) : List String → List Ev × List String
  | [] => ([Ev.complete], [])
  | f :: rest =>
    match del f with
    | Except.ok _ =>
      let r := lambdaTaskRun del rest
      (Ev.next ("Deleting " ++ f ++ "...") :: r.1, f :: r.2)
    | Except.error _ => ([Ev.next ("Deleting " ++ f ++ "...")], [f])

/-- CloudFront calls issued by the cloudfront task. -/
inductive CfCall where
  | getConfig (id : String)
  | updateDistribution (id : String) (enabled : Bool) (ifMatch : String)
  | deleteDistribution (id : String) (ifMatch : String)
deriving DecidableEq

def isUpdateDist : CfCall → Bool
  | CfCall.updateDistribution _ _ _ => true
  | _ => false

def isDeleteDist : CfCall → Bool
  | CfCall.deleteDistribution _ _ => true
  | _ => false

/-- The `getDistributionConfig` response fields used by the source:
the concurrency token `ETag` and the `Enabled` flag. -/
structure DistConfig where
  ETag : String
  Enabled : Bool
deriving DecidableEq

/-- The calls the cloudfront task issues for one distribution with
configuration `c`: read the configuration; if enabled, one disabling
`updateDistribution` (with the token) and no delete; otherwise one
`deleteDistribution` carrying the token and no update. -/
def cfItemCalls (c : DistConfig) (idd : String) : List CfCall :=
  CfCall.getConfig idd ::
    (if c.Enabled then
      [CfCall.updateDistribution idd false c.ETag]
    else
      [CfCall.deleteDistribution idd c.ETag])

/-- The cloudfront task body over its item list `(Id, DomainName)`:
per item, notify, read the configuration (oracle `cfg`); if enabled,
disable and continue; otherwise delete (outcome oracle `del`). A
delete failure is caught: `observer.error` is invoked with the
message and the task returns, attempting no further items. -/
def cfTaskRun (cfg : String → DistConfig) (del : String → Except String Unit) :
    List (String × String) → List Ev × List CfCall
  | [] => ([Ev.complete], [])
  | (idd, dom) :: rest =>
    let c := cfg idd
    let ev0 := Ev.next ("Fetching " ++ dom ++ " configuration...")
    if c.Enabled then
      let r := cfTaskRun cfg del rest
      (ev0 :: Ev.next ("Disabling " ++ dom ++ "...") :: r.1,
       cfItemCalls c idd ++ r.2)
    else
      match del idd with
      | Except.ok _ =>
        let r := cfTaskRun cfg del rest
        (ev0 :: Ev.next ("Deleting " ++ dom ++ "...") :: r.1,
         cfItemCalls c idd ++ r.2)
      | Except.error msg =>
        ([ev0, Ev.next ("Deleting " ++ dom ++ "..."), Ev.error msg],
         cfItemCalls c idd)

/-- IAM calls issued by the iam-role task. -/
inductive IamCall where
  | listRolePolicies (role : String)
  | deleteRolePolicy (role policy : String)
  | listAttachedRolePolicies (role : String)
  | detachRolePolicy (role arn : String)
  | deleteRole (role : String)
deriving DecidableEq

def isDeleteRolePolicy : IamCall → Bool
  | IamCall.deleteRolePolicy _ _ => true
  | _ => false

def isDetachRolePolicy : IamCall → Bool
  | IamCall.detachRolePolicy _ _ => true
  | _ => false

def isDeleteRole : IamCall → Bool
  | IamCall.deleteRole _ => true
  | _ => false

/-- The calls the iam-role task issues for one role, given the inline
policy names and attached policy ARNs reported by the two listing
calls: list inline policies, delete each; list attachments, detach
each; finally delete the role. -/
def roleCalls (roleName : String) (inline attached : List String) : List IamCall :=
  (IamCall.listRolePolicies roleName ::
    inline.map (fun p => IamCall.deleteRolePolicy roleName p) ++
    IamCall.listAttachedRolePolicies roleName ::
    attached.map (fun a => IamCall.detachRolePolicy roleName a)) ++
  [IamCall.deleteRole roleName]

/-- Outcome of one `apiGateway.deleteRestApi` call, as classified by
the source: success, or an error with its `code` and `message`. -/
inductive ApiResult where
  | ok
  | err (code msg : String)
deriving DecidableEq

/-- Aggregate outcome of the retry wrapper: the number of attempts
made, the backoff delays (milliseconds) actually waited, the
progress notifications emitted by the wrapped body, and the final
result. -/
structure RetryOutcome where
  attempts : Nat
  delays : List Nat
  notified : List Ev
  result : Except (String × String) Unit

/-- The `pRetry` loop around the api-gateway delete body. Attempt
numbers start at 1; `call` is the oracle giving each attempt's
outcome. The body rethrows a `TooManyRequestsException` error after
notifying progress (retryable); any other error is wrapped in
`AbortError`, which makes `pRetry` stop immediately and reject with
the original error. After a retryable failure with retries left,
`pRetry` waits `minT * factor ^ (attempt - 1)` and tries again; with
none left it rejects with the last error. -/
def pRetryGo (call : Nat → ApiResult) (minT factor : Nat) :
    Nat → Nat → RetryOutcome
  | attempt, retriesLeft =>
    match call attempt with
    | ApiResult.ok => ⟨attempt, [], [], Except.ok ()⟩
    | ApiResult.err code msg =>
      if code = "TooManyRequestsException" then
        match retriesLeft with
        | 0 =>
          ⟨attempt, [], [Ev.next (msg ++ ". Will retry...")], Except.error (code, msg)⟩
        | Nat.succ r =>
          let rest := pRetryGo call minT factor (attempt + 1) r
          ⟨rest.attempts,
           minT * factor ^ (attempt - 1) :: rest.delays,
           Ev.next (msg ++ ". Will retry...") :: rest.notified,
           rest.result⟩
      else
        ⟨attempt, [], [], Except.error (code, msg)⟩

/-- The retry configuration of the api-gateway task:
`retries: 3, minTimeout: 60000, factor: 2`. -/
def apiGatewayDeleteWithRetry (call : Nat → ApiResult) : RetryOutcome :=
  pRetryGo call 60000 2 1 3

/-- A deletion task as seen by the task runner: its title. The
runnable bodies are modelled by the per-kind trace functions above. -/
structure TaskItem where
  title : String
deriving DecidableEq

/-- The title built by each branch of the `switch` in `generateTasks`,
`none` for an unrecognized kind (the `default: return null` branch). -/
def kindTitle (type : String) (n : Nat) : Option String :=
  if type = "lambda" then some ("Delete " ++ toString n ++ " Lambda functions")
  else if type = "bucket" then some ("Delete " ++ toString n ++ " buckets")
  else if type = "api-gateway" then some ("Delete " ++ toString n ++ " API Gateways")
  else if type = "iam-role" then some ("Delete " ++ toString n ++ " IAM roles")
  else if type = "cloudfront" then some ("Delete " ++ toString n ++ " CloudFront distribution")
  else if type = "log-group" then some ("Delete " ++ toString n ++ " CloudWatch Log Groups")
  else none

/-- `generateTasks`: map each key of the selection mapping through the
`switch` (building a task or `null`), then `filter(Boolean)`. The
mapping is modelled as an association list in key iteration order;
record payloads are irrelevant to titles, so the element type is a
parameter. -/
def generateTasks {α : Type} (resources : List (String × List α)) : List TaskItem :=
  resources.filterMap (fun p => (kindTitle p.1 p.2.length).map TaskItem.mk)

/-- The kind label occurring in each supported branch's title. -/
def kindLabel (type : String) : Option String :=
  if type = "lambda" then some "Lambda functions"
  else if type = "bucket" then some "buckets"
  else if type = "api-gateway" then some "API Gateways"
  else if type = "iam-role" then some "IAM roles"
  else if type = "cloudfront" then some "CloudFront distribution"
  else if type = "log-group" then some "CloudWatch Log Groups"
  else none

/-- Modelled from the spec (section 4.2): one task per present
supported kind, in the iteration order of the mapping, titled with
the item count followed by the kind label. -/
def tasksSpec {α : Type} (resources : List (String × List α)) : List TaskItem :=
  (resources.filter (fun p => (kindLabel p.1).isSome)).map
    (fun p => TaskItem.mk ("Delete " ++ toString p.2.length ++ " " ++ (kindLabel p.1).getD ""))

lemma countP_map_of_true {α β : Type} (f : α → β) (p : β → Bool)
    (h : ∀ a, p (f a) = true) (l : List α) : (l.map f).countP p = l.length := by
  induction l with
  | nil => rfl
  | cons a l ih => simp [List.countP_cons, h, ih]

lemma countP_map_of_false {α β : Type} (f : α → β) (p : β → Bool)
    (h : ∀ a, p (f a) = false) (l : List α) : (l.map f).countP p = 0 := by
  induction l with
  | nil => rfl
  | cons a l ih => simp [List.countP_cons, h, ih]

/-- C7: in the identity-role deletion protocol, a role whose listing
calls report `inline` inline policies and `attached` managed policy
attachments receives exactly `inline.length` inline-policy delete
calls and exactly `attached.length` detach calls, and the single
role-delete call is the last call issued, so every inline-delete and
detach call strictly precedes it. -/
theorem iam_role_unwind_before_delete (roleName : String) (inline attached : List String) :
    (roleCalls roleName inline attached).countP isDeleteRolePolicy = inline.length ∧
    (roleCalls roleName inline attached).countP isDetachRolePolicy = attached.length ∧
    (roleCalls roleName inline attached).countP isDeleteRole = 1 ∧
    (roleCalls roleName inline attached).getLast? = some (IamCall.deleteRole roleName) := by
  refine ⟨?_, ?_, ?_, ?_⟩
  · simp [roleCalls, List.countP_append, List.countP_cons, isDeleteRolePolicy,
      countP_map_of_true (fun p => IamCall.deleteRolePolicy roleName p) isDeleteRolePolicy
        (fun _ => rfl),
      countP_map_of_false (fun a => IamCall.detachRolePolicy roleName a) isDeleteRolePolicy
        (fun _ => rfl)]
  · simp [roleCalls, List.countP_append, List.countP_cons, isDetachRolePolicy,
      countP_map_of_true (fun a => IamCall.detachRolePolicy roleName a) isDetachRolePolicy
        (fun _ => rfl),
      countP_map_of_false (fun p => IamCall.deleteRolePolicy roleName p) isDetachRolePolicy
        (fun _ => rfl)]
  · simp [roleCalls, List.countP_append, List.countP_cons, isDeleteRole,
      countP_map_of_false (fun p => IamCall.deleteRolePolicy roleName p) isDeleteRole
        (fun _ => rfl),
      countP_map_of_false (fun a => IamCall.detachRolePolicy roleName a) isDeleteRole
        (fun _ => rfl)]
  · rw [roleCalls]
    exact List.getLast?_concat _

lemma kindTitle_eq_label (s : String) (n : Nat) :
    kindTitle s n = (kindLabel s).map (fun lab => "Delete " ++ toString n ++ " " ++ lab) := by
  have hsplit : ∀ lab sp : String, sp = " " ++ lab →
      ("Delete " ++ toString n ++ sp : String) = "Delete " ++ toString n ++ " " ++ lab := by
    intro lab sp h
    rw [h, ← String.append_assoc]
  unfold kindTitle kindLabel
  split_ifs <;> simp only [Option.map_some', Option.map_none'] <;>
    first
      | rfl
      | exact congrArg some (hsplit _ _ rfl)

/-- C8: the task generator returns one task per present supported
kind, in the iteration order of the mapping, each titled with the
item count and the kind label; unknown kinds are skipped, so the
number of tasks equals the number of supported kinds present. -/
theorem generateTasks_one_task_per_kind {α : Type} (resources : List (String × List α)) :
    generateTasks resources = tasksSpec resources ∧
    (generateTasks resources).length
      = (resources.filter (fun p => (kindLabel p.1).isSome)).length := by
  have h : generateTasks resources = tasksSpec resources := by
    induction resources with
    | nil => rfl
    | cons p rest ih =>
      simp only [generateTasks, List.filterMap_cons, tasksSpec, List.filter_cons] at ih ⊢
      rw [kindTitle_eq_label]
      cases hl : kindLabel p.1 with
      | none => simpa [hl] using ih
      | some lab => simpa [hl] using ih
  refine ⟨h, ?_⟩
  rw [h]
  simp [tasksSpec]

/-- C6: for a distribution whose fetched configuration is enabled,
the cloudfront protocol issues exactly one disabling update call and
no delete call; for an already-disabled one it issues exactly one
delete call, which carries the concurrency token obtained from the
configuration read, and no update call. The first two calls the task
issues for the head item are exactly these item calls. -/
theorem cloudfront_two_phase (cfg : String → DistConfig) (idd : String) :
    ((cfg idd).Enabled = true →
      (cfItemCalls (cfg idd) idd).countP isUpdateDist = 1 ∧
      (cfItemCalls (cfg idd) idd).countP isDeleteDist = 0) ∧
    ((cfg idd).Enabled = false →
      (cfItemCalls (cfg idd) idd).countP isDeleteDist = 1 ∧
      (cfItemCalls (cfg idd) idd).countP isUpdateDist = 0 ∧
      CfCall.deleteDistribution idd (cfg idd).ETag ∈ cfItemCalls (cfg idd) idd) ∧
    (∀ (del : String → Except String Unit) (dom : String) (rest : List (String × String)),
      ((cfTaskRun cfg del ((idd, dom) :: rest)).2).take 2 = cfItemCalls (cfg idd) idd) := by
  refine ⟨?_, ?_, ?_⟩
  · intro h
    simp [cfItemCalls, h, List.countP_cons, isUpdateDist, isDeleteDist]
  · intro h
    simp [cfItemCalls, h, List.countP_cons, isUpdateDist, isDeleteDist]
  · intro del dom rest
    have hlen : (cfItemCalls (cfg idd) idd).length = 2 := by
      by_cases hE : (cfg idd).Enabled <;> simp [cfItemCalls, hE]
    by_cases hE : (cfg idd).Enabled
    · simp only [cfTaskRun, hE, if_true]
      exact List.take_left' hlen
    · cases hd : del idd with
      | ok u =>
        simp only [cfTaskRun, hd, if_neg hE]
        exact List.take_left' hlen
      | error msg =>
        simp only [cfTaskRun, hd, if_neg hE]
        exact List.take_of_length_le (le_of_eq hlen)

lemma drainLambda_eq_consumed :
    ∀ (pages : List LambdaPage) (l : List FunctionRecord),
      drainLambdaPages pages = some l →
      l = ((consumedLambda pages).map (fun p => p.Functions)).flatten := by
  intro pages
  induction pages with
  | nil => intro l h; simp [drainLambdaPages] at h
  | cons p rest ih =>
    intro l h
    cases hm : p.NextMarker with
    | none =>
      rw [drainLambdaPages, hm] at h
      cases h
      simp [consumedLambda, hm]
    | some m =>
      rw [drainLambdaPages, hm] at h
      cases hd : drainLambdaPages rest with
      | none => rw [hd] at h; cases h
      | some l' =>
        rw [hd] at h
        cases h
        simp [consumedLambda, hm, ih l' hd]

lemma drainDist_eq_consumed :
    ∀ (pages : List DistPage) (l : List DistRecord),
      drainDistPages pages = some l →
      l = ((consumedDist pages).map (fun p => p.Items)).flatten := by
  intro pages
  induction pages with
  | nil => intro l h; simp [drainDistPages] at h
  | cons p rest ih =>
    intro l h
    by_cases ht : p.IsTruncated
    · rw [drainDistPages, if_pos ht] at h
      cases hd : drainDistPages rest with
      | none => rw [hd] at h; cases h
      | some l' =>
        rw [hd] at h
        cases h
        simp [consumedDist, ht, ih l' hd]
    · rw [drainDistPages, if_neg ht] at h
      cases h
      simp [consumedDist, ht]

lemma drainRoles_eq_consumed :
    ∀ (pages : List RolePage) (l : List RoleRecord),
      drainRolePages pages = some l →
      l = ((consumedRoles pages).map (fun p => p.Roles)).flatten := by
  intro pages
  induction pages with
  | nil => intro l h; simp [drainRolePages] at h
  | cons p rest ih =>
    intro l h
    by_cases ht : p.IsTruncated
    · rw [drainRolePages, if_pos ht] at h
      cases hd : drainRolePages rest with
      | none => rw [hd] at h; cases h
      | some l' =>
        rw [hd] at h
        cases h
        simp [consumedRoles, ht, ih l' hd]
    · rw [drainRolePages, if_neg ht] at h
      cases h
      simp [consumedRoles, ht]

lemma drainFrom_eq_drop (fl : List LogGroup) (start : Nat) :
    drainFrom fl start = fl.drop start := by
  have H : ∀ n start, fl.length - start ≤ n → drainFrom fl start = fl.drop start := by
    intro n
    induction n with
    | zero =>
      intro start hle
      rw [drainFrom]
      have hnlt : ¬ (start + 50 < fl.length) := by omega
      rw [dif_neg hnlt]
      have hlen : fl.length ≤ start := by omega
      simp [List.drop_eq_nil_of_le hlen]
    | succ n ihn =>
      intro start hle
      rw [drainFrom]
      by_cases hlt : start + 50 < fl.length
      · rw [dif_pos hlt, ihn (start + 50) (by omega)]
        have h1 : fl.drop (start + 50) = (fl.drop start).drop 50 := by
          rw [List.drop_drop]
        rw [h1, List.take_append_drop]
      · rw [dif_neg hlt]
        have hlen : (fl.drop start).length ≤ 50 := by
          simp [List.length_drop]
          omega
        exact List.take_of_length_le hlen
  exact H (fl.length - start) start le_rfl

lemma getAllLogGroups_perm_filtered (all : List LogGroup) :
    List.Perm (getAllLogGroups all) (awsFiltered all) := by
  unfold getAllLogGroups
  rw [drainFrom_eq_drop, List.drop_zero]
  exact sortByDesc_perm _ _

/-- Concrete log group whose name lacks the `/aws/` name restriction
of the log-group listing request. -/
def customGroup : LogGroup :=
  { logGroupName := "custom", creationTime := 0 }

/-- C4 counterexample: a log group that exists and is visible to the
identity but whose name does not start with `/aws/` is absent from
the log-group lister's result, so the lister does not return the
complete collection of existing resources of that kind. -/
theorem log_group_lister_misses_custom_group :
    customGroup ∈ [customGroup] ∧ customGroup ∉ getAllLogGroups [customGroup] := by
  constructor
  · exact List.mem_singleton_self _
  · have hp := getAllLogGroups_perm_filtered [customGroup]
    have he : awsFiltered [customGroup] = [] := by decide
    rw [he] at hp
    rw [List.perm_nil.mp hp]
    simp

/-- C4 amended: each lister fully drains its paginated listing (the
result is a permutation of everything the request scope contains,
never a partial page), but the log-group listing request is
restricted to names starting with `/aws/`, so for that kind the
result is the complete collection of `/aws/`-named log groups rather
than of all log groups; the bucket lister returns every bucket of
the single unpaginated response. -/
theorem listers_drain_request_scope :
    (∀ all : List LogGroup, List.Perm (getAllLogGroups all) (awsFiltered all)) ∧
    (∀ bs : List BucketRecord, List.Perm (getAllBuckets bs) bs) :=
  ⟨getAllLogGroups_perm_filtered, fun bs => sortByDesc_perm _ bs⟩

/-- C5 amended, part of the statement: the collection a lister
returns is the accumulation of exactly the pages its loop consumed
(the union of those pages, with size the sum of their sizes); items
are accumulated by plain concatenation, so nothing is deduplicated.
Stated for the two cited kinds (functions and distributions). -/
theorem listers_accumulate_consumed_pages :
    (∀ (pages : List LambdaPage) (l : List FunctionRecord),
      getAllFunctions pages = some l →
      List.Perm l (((consumedLambda pages).map (fun p => p.Functions)).flatten) ∧
      l.length = ((consumedLambda pages).map (fun p => p.Functions.length)).sum) ∧
    (∀ (pages : List DistPage) (l : List DistRecord),
      getAllCloudFrontDistributions pages = some l →
      List.Perm l (((consumedDist pages).map (fun p => p.Items)).flatten) ∧
      l.length = ((consumedDist pages).map (fun p => p.Items.length)).sum) := by
  constructor
  · intro pages l h
    rw [getAllFunctions] at h
    cases hd : drainLambdaPages pages with
    | none => rw [hd] at h; cases h
    | some l0 =>
      rw [hd] at h
      cases h
      have he := drainLambda_eq_consumed pages l0 hd
      have hperm : List.Perm (sortByDesc (fun f => f.LastModified) l0) l0 :=
        sortByDesc_perm _ _
      refine ⟨he ▸ hperm, ?_⟩
      rw [hperm.length_eq, he, List.length_flatten, List.map_map]
      rfl
  · intro pages l h
    rw [getAllCloudFrontDistributions] at h
    cases hd : drainDistPages pages with
    | none => rw [hd] at h; cases h
    | some l0 =>
      rw [hd] at h
      cases h
      have he := drainDist_eq_consumed pages l0 hd
      have hperm : List.Perm (sortByDesc (fun d => d.LastModifiedTime) l0) l0 :=
        sortByDesc_perm _ _
      refine ⟨he ▸ hperm, ?_⟩
      rw [hperm.length_eq, he, List.length_flatten, List.map_map]
      rfl

/-- Concrete function record used in the duplicate-page scenario. -/
def fDup : FunctionRecord :=
  { FunctionName := "f", LastModified := 0 }

/-- A provider response sequence that re-serves the same page after a
re-issued cursor: both responses carry the same single item. -/
def dupPages : List LambdaPage :=
  [{ Functions := [fDup], NextMarker := some "m" },
   { Functions := [fDup], NextMarker := none }]

/-- C5 counterexample: when the same page is returned twice the item
appears twice in the lister's result; accumulation is concatenation
with no deduplication, so the no-duplicates part of the claim fails
(while the size still equals the sum of the page sizes). -/
theorem lambda_lister_duplicates_repeated_page :
    getAllFunctions dupPages = some [fDup, fDup] ∧
    ((getAllFunctions dupPages).getD []).count fDup = 2 := by
  constructor
  · rfl
  · rfl

/-- Single-page response used as a witness input for the listers. -/
def lamPage1 : LambdaPage :=
  { Functions := [fDup], NextMarker := none }

/-- Witness for the amended C5 theorem: evaluates both lister models
on concrete single-page inputs and applies the theorem. -/
theorem listers_accumulate_consumed_pages_witness :
    (List.Perm [fDup] (((consumedLambda [lamPage1]).map (fun p => p.Functions)).flatten) ∧
      ([fDup] : List FunctionRecord).length
        = ((consumedLambda [lamPage1]).map (fun p => p.Functions.length)).sum) :=
  listers_accumulate_consumed_pages.1 [lamPage1] [fDup] rfl

/-- C9: every record in the identity-role lister's output survives
the reserved-system-role name test (neither `AWSService` nor
`OrganizationAccount` starts its name), and the output is a
permutation of the drained listing filtered by that test — the
filter is applied to the full accumulation, with the descending sort
only permuting the filtered list afterwards. -/
theorem iam_lister_excludes_system_roles (pages : List RolePage) (rs : List RoleRecord)
    (h : getAllIAMRoles pages = some rs) :
    (∀ r ∈ rs, strStartsWith r.RoleName "AWSService" = false ∧
      strStartsWith r.RoleName "OrganizationAccount" = false) ∧
    List.Perm rs
      ((((consumedRoles pages).map (fun p => p.Roles)).flatten).filter keepRole) := by
  rw [getAllIAMRoles] at h
  cases hd : drainRolePages pages with
  | none => rw [hd] at h; cases h
  | some l0 =>
    rw [hd] at h
    cases h
    have he := drainRoles_eq_consumed pages l0 hd
    have hperm : List.Perm (sortByDesc (fun r => r.CreateDate) (l0.filter keepRole))
        (l0.filter keepRole) := sortByDesc_perm _ _
    refine ⟨?_, he ▸ hperm⟩
    intro r hr
    have hrf : r ∈ l0.filter keepRole := hperm.mem_iff.mp hr
    have hk : keepRole r = true := List.of_mem_filter hrf
    rw [keepRole] at hk
    constructor
    · cases hws : strStartsWith r.RoleName "AWSService" with
      | false => rfl
      | true => rw [hws] at hk; simp at hk
    · cases hoa : strStartsWith r.RoleName "OrganizationAccount" with
      | false => rfl
      | true => rw [hoa] at hk; simp at hk

/-- Concrete reserved system role. -/
def sysRole : RoleRecord :=
  { RoleName := "AWSServiceFoo", CreateDate := 1 }

/-- Concrete user role. -/
def userRole : RoleRecord :=
  { RoleName := "mine", CreateDate := 2 }

/-- Single-page role listing containing a system role and a user
role. -/
def rolePages1 : List RolePage :=
  [{ Roles := [sysRole, userRole], IsTruncated := false, Marker := none }]

/-- Witness for C9: on the concrete page the lister keeps only the
user role; the theorem is applied with the evaluated result. -/
theorem iam_lister_excludes_system_roles_witness :
    (∀ r ∈ [userRole], strStartsWith r.RoleName "AWSService" = false ∧
      strStartsWith r.RoleName "OrganizationAccount" = false) ∧
    List.Perm [userRole]
      ((((consumedRoles rolePages1).map (fun p => p.Roles)).flatten).filter keepRole) :=
  iam_lister_excludes_system_roles rolePages1 [userRole] rfl

/-- C10: each pagination loop terminates (its embedding returns a
materialized result rather than exhausting the response sequence)
whenever some response carries an absent continuation signal: a
missing `NextMarker` for the function lister, a false truncation
flag for the distribution and role listers, and an empty contents
page or false truncation flag for the bucket object-drain loop. -/
theorem pagination_loops_terminate :
    (∀ pages : List LambdaPage, (∃ p ∈ pages, p.NextMarker = none) →
      (drainLambdaPages pages).isSome = true) ∧
    (∀ pages : List DistPage, (∃ p ∈ pages, p.IsTruncated = false) →
      (drainDistPages pages).isSome = true) ∧
    (∀ pages : List RolePage, (∃ p ∈ pages, p.IsTruncated = false) →
      (drainRolePages pages).isSome = true) ∧
    (∀ (b : String) (m : Option String) (pages : List ObjPage),
      (∃ p ∈ pages, p.Contents.isEmpty = true ∨ p.IsTruncated = false) →
      (drainBucket b m pages).isSome = true) := by
  refine ⟨?_, ?_, ?_, ?_⟩
  · intro pages
    induction pages with
    | nil => intro h; simp at h
    | cons p rest ih =>
      intro h
      cases hm : p.NextMarker with
      | none => simp [drainLambdaPages, hm]
      | some m =>
        obtain ⟨q, hq, hqn⟩ := h
        rcases List.mem_cons.mp hq with rfl | hq'
        · rw [hm] at hqn; cases hqn
        · have hrest := ih ⟨q, hq', hqn⟩
          rw [drainLambdaPages, hm]
          cases hd : drainLambdaPages rest with
          | none => rw [hd] at hrest; cases hrest
          | some l => simp
  · intro pages
    induction pages with
    | nil => intro h; simp at h
    | cons p rest ih =>
      intro h
      by_cases ht : p.IsTruncated
      · obtain ⟨q, hq, hqn⟩ := h
        rcases List.mem_cons.mp hq with rfl | hq'
        · rw [ht] at hqn; cases hqn
        · have hrest := ih ⟨q, hq', hqn⟩
          rw [drainDistPages, if_pos ht]
          cases hd : drainDistPages rest with
          | none => rw [hd] at hrest; cases hrest
          | some l => simp
      · rw [drainDistPages, if_neg ht]
        rfl
  · intro pages
    induction pages with
    | nil => intro h; simp at h
    | cons p rest ih =>
      intro h
      by_cases ht : p.IsTruncated
      · obtain ⟨q, hq, hqn⟩ := h
        rcases List.mem_cons.mp hq with rfl | hq'
        · rw [ht] at hqn; cases hqn
        · have hrest := ih ⟨q, hq', hqn⟩
          rw [drainRolePages, if_pos ht]
          cases hd : drainRolePages rest with
          | none => rw [hd] at hrest; cases hrest
          | some l => simp
      · rw [drainRolePages, if_neg ht]
        rfl
  · intro b m pages
    induction pages generalizing m with
    | nil => intro h; simp at h
    | cons p rest ih =>
      intro h
      by_cases hc : p.Contents.isEmpty
      · rw [drainBucket, if_pos hc]
        rfl
      · by_cases ht : p.IsTruncated
        · obtain ⟨q, hq, hqn⟩ := h
          rcases List.mem_cons.mp hq with rfl | hq'
          · rcases hqn with hqe | hqt
            · exact absurd hqe hc
            · rw [ht] at hqt; cases hqt
          · have hrest := ih (some (p.Contents.getLast?.getD "")) ⟨q, hq', hqn⟩
            rw [drainBucket, if_neg hc, if_pos ht]
            cases hd : drainBucket b (some (p.Contents.getLast?.getD "")) rest with
            | none => rw [hd] at hrest; cases hrest
            | some l => simp
        · rw [drainBucket, if_neg hc, if_neg ht]
          rfl

/-- Witness for C10: each drain applied to a concrete one-page
response sequence whose single response ends the loop. -/
theorem pagination_loops_terminate_witness :
    (drainLambdaPages [{ Functions := [], NextMarker := none }]).isSome = true ∧
    (drainDistPages [{ Items := [], IsTruncated := false, NextMarker := none }]).isSome = true ∧
    (drainRolePages [{ Roles := [], IsTruncated := false, Marker := none }]).isSome = true ∧
    (drainBucket "b" none [{ Contents := ["k"], IsTruncated := false }]).isSome = true :=
  ⟨pagination_loops_terminate.1 _ ⟨_, List.mem_singleton_self _, rfl⟩,
   pagination_loops_terminate.2.1 _ ⟨_, List.mem_singleton_self _, rfl⟩,
   pagination_loops_terminate.2.2.1 _ ⟨_, List.mem_singleton_self _, rfl⟩,
   pagination_loops_terminate.2.2.2 "b" none _ ⟨_, List.mem_singleton_self _, Or.inr rfl⟩⟩

lemma drainBucket_full (b : String) :
    ∀ (ps : List ObjPage) (plast : ObjPage) (m : Option String),
      (∀ p ∈ ps, p.Contents.isEmpty = false ∧ p.IsTruncated = true) →
      plast.Contents.isEmpty = false → plast.IsTruncated = false →
      ∃ t, drainBucket b m (ps ++ [plast]) = some t ∧
        t.countP isListObjects = ps.length + 1 ∧
        t.countP isDeleteObjects = ps.length + 1 ∧
        t.countP isDeleteBucket = 0 := by
  intro ps
  induction ps with
  | nil =>
    intro plast m _ h1 h2
    refine ⟨[S3Call.listObjects b m, S3Call.deleteObjects b plast.Contents], ?_, ?_, ?_, ?_⟩
    · rw [List.nil_append, drainBucket, if_neg (by simp [h1]), if_neg (by simp [h2])]
    · simp [List.countP_cons, isListObjects]
    · simp [List.countP_cons, isDeleteObjects]
    · simp [List.countP_cons, isDeleteBucket]
  | cons p ps ih =>
    intro plast m hps h1 h2
    have hp := hps p (List.mem_cons_self p ps)
    obtain ⟨t, ht, hl, hd, hb⟩ :=
      ih plast (some (p.Contents.getLast?.getD ""))
        (fun q hq => hps q (List.mem_cons_of_mem p hq)) h1 h2
    refine ⟨S3Call.listObjects b m :: S3Call.deleteObjects b p.Contents :: t, ?_, ?_, ?_, ?_⟩
    · rw [List.cons_append, drainBucket, if_neg (by simp [hp.1]), if_pos hp.2, ht]
      rfl
    · simp [List.countP_cons, isListObjects, hl]
    · simp [List.countP_cons, isDeleteObjects, hd]
    · simp [List.countP_cons, isDeleteBucket, hb]

/-- C1: for a bucket whose objects occupy `P = ps.length + 1`
provider pages (`K` objects in total), all pages nonempty, all but
the last truncated, the bucket task issues exactly `P` listing calls
and exactly (hence at most) `P` batch-delete calls, and the single
bucket-delete call is the final call of the trace, so every listing
and batch-delete call strictly precedes it. -/
theorem bucket_drained_before_delete (b : String) (ps : List ObjPage) (plast : ObjPage)
    (K P : Nat)
    (hps : ∀ p ∈ ps, p.Contents.isEmpty = false ∧ p.IsTruncated = true)
    (h1 : plast.Contents.isEmpty = false) (h2 : plast.IsTruncated = false)
    (hP : P = ps.length + 1)
    (_hK : K = ((ps ++ [plast]).map (fun p => p.Contents.length)).sum) :
    (bucketTaskCalls b (ps ++ [plast])).isSome = true ∧
    ((bucketTaskCalls b (ps ++ [plast])).getD []).countP isListObjects = P ∧
    ((bucketTaskCalls b (ps ++ [plast])).getD []).countP isDeleteObjects ≤ P ∧
    ((bucketTaskCalls b (ps ++ [plast])).getD []).countP isDeleteBucket = 1 ∧
    ((bucketTaskCalls b (ps ++ [plast])).getD []).getLast?
      = some (S3Call.deleteBucket b) := by
  obtain ⟨t, ht, hl, hd, hb⟩ := drainBucket_full b ps plast none hps h1 h2
  have hcalls : bucketTaskCalls b (ps ++ [plast]) = some (t ++ [S3Call.deleteBucket b]) := by
    rw [bucketTaskCalls, ht]
    rfl
  rw [hcalls]
  refine ⟨rfl, ?_, ?_, ?_, ?_⟩
  · simp [List.countP_append, List.countP_cons, isListObjects, hl, hP]
  · simp [List.countP_append, List.countP_cons, isDeleteObjects, hd, hP]
  · simp [List.countP_append, List.countP_cons, isDeleteBucket, hb]
  · exact List.getLast?_concat t

/-- Concrete truncated first page for the C1 witness. -/
def objPageA : ObjPage :=
  { Contents := ["k1", "k2"], IsTruncated := true }

/-- Concrete final untruncated page for the C1 witness. -/
def objPageB : ObjPage :=
  { Contents := ["k3"], IsTruncated := false }

/-- Witness for C1: a bucket with 3 objects split across 2 pages gets
2 listing calls, at most 2 batch-delete calls, and one final
bucket-delete call. -/
theorem bucket_drained_before_delete_witness :
    (bucketTaskCalls "b" ([objPageA] ++ [objPageB])).isSome = true ∧
    ((bucketTaskCalls "b" ([objPageA] ++ [objPageB])).getD []).countP isListObjects = 2 ∧
    ((bucketTaskCalls "b" ([objPageA] ++ [objPageB])).getD []).countP isDeleteObjects ≤ 2 ∧
    ((bucketTaskCalls "b" ([objPageA] ++ [objPageB])).getD []).countP isDeleteBucket = 1 ∧
    ((bucketTaskCalls "b" ([objPageA] ++ [objPageB])).getD []).getLast?
      = some (S3Call.deleteBucket "b") :=
  bucket_drained_before_delete "b" [objPageA] objPageB 3 2
    (by decide) (by decide) (by decide) (by decide) (by decide)

lemma pRetryGo_ok_eq (call : Nat → ApiResult) (minT factor attempt r : Nat)
    (h : call attempt = ApiResult.ok) :
    pRetryGo call minT factor attempt r = ⟨attempt, [], [], Except.ok ()⟩ := by
  rw [pRetryGo, h]

lemma pRetryGo_abort_eq (call : Nat → ApiResult) (minT factor attempt r : Nat)
    (code msg : String) (h : call attempt = ApiResult.err code msg)
    (hc : code ≠ "TooManyRequestsException") :
    pRetryGo call minT factor attempt r
      = ⟨attempt, [], [], Except.error (code, msg)⟩ := by
  rw [pRetryGo, h]
  exact if_neg hc

lemma pRetryGo_exhausted_eq (call : Nat → ApiResult) (minT factor attempt : Nat)
    (msg : String) (h : call attempt = ApiResult.err "TooManyRequestsException" msg) :
    pRetryGo call minT factor attempt 0
      = ⟨attempt, [], [Ev.next (msg ++ ". Will retry...")],
         Except.error ("TooManyRequestsException", msg)⟩ := by
  rw [pRetryGo, h]
  rfl

lemma pRetryGo_retry_eq (call : Nat → ApiResult) (minT factor attempt r rl : Nat)
    (msg : String) (h : call attempt = ApiResult.err "TooManyRequestsException" msg)
    (hrl : rl = r + 1) :
    pRetryGo call minT factor attempt rl
      = ⟨(pRetryGo call minT factor (attempt + 1) r).attempts,
         minT * factor ^ (attempt - 1) :: (pRetryGo call minT factor (attempt + 1) r).delays,
         Ev.next (msg ++ ". Will retry...")
           :: (pRetryGo call minT factor (attempt + 1) r).notified,
         (pRetryGo call minT factor (attempt + 1) r).result⟩ := by
  subst hrl
  rw [pRetryGo, h]
  rfl

lemma pRetryGo_attempts_le (call : Nat → ApiResult) (minT factor : Nat) :
    ∀ (r attempt : Nat), (pRetryGo call minT factor attempt r).attempts ≤ attempt + r := by
  intro r
  induction r with
  | zero =>
    intro attempt
    cases hcall : call attempt with
    | ok =>
      rw [pRetryGo_ok_eq call minT factor attempt 0 hcall]
      dsimp only
      omega
    | err code msg =>
      by_cases hc : code = "TooManyRequestsException"
      · subst hc
        rw [pRetryGo_exhausted_eq call minT factor attempt msg hcall]
        dsimp only
        omega
      · rw [pRetryGo_abort_eq call minT factor attempt 0 code msg hcall hc]
        dsimp only
        omega
  | succ r ih =>
    intro attempt
    cases hcall : call attempt with
    | ok =>
      rw [pRetryGo_ok_eq call minT factor attempt (r + 1) hcall]
      dsimp only
      omega
    | err code msg =>
      by_cases hc : code = "TooManyRequestsException"
      · subst hc
        rw [pRetryGo_retry_eq call minT factor attempt r (r + 1) msg hcall rfl]
        have := ih (attempt + 1)
        dsimp only
        omega
      · rw [pRetryGo_abort_eq call minT factor attempt (r + 1) code msg hcall hc]
        dsimp only
        omega

/-- C2 amended: the api-gateway retry wrapper retries only failures
whose code is `TooManyRequestsException`, emitting the error message
to the progress stream on each such failure; any other error class
aborts immediately after exactly 1 attempt with that error as the
outcome; at most 4 attempts are made in total (pRetry `retries: 3`
bounds retries, not attempts), with exponential backoff gaps of 60s,
120s, 240s; and after exhausting the retries the final error
propagates as the outcome. -/
theorem apigw_retry_policy :
    (∀ (call : Nat → ApiResult) (code msg : String),
      code ≠ "TooManyRequestsException" → call 1 = ApiResult.err code msg →
      apiGatewayDeleteWithRetry call = ⟨1, [], [], Except.error (code, msg)⟩) ∧
    (∀ (call : Nat → ApiResult) (msg : String),
      (∀ k, call k = ApiResult.err "TooManyRequestsException" msg) →
      apiGatewayDeleteWithRetry call
        = ⟨4, [60000, 120000, 240000],
            [Ev.next (msg ++ ". Will retry..."), Ev.next (msg ++ ". Will retry..."),
             Ev.next (msg ++ ". Will retry..."), Ev.next (msg ++ ". Will retry...")],
            Except.error ("TooManyRequestsException", msg)⟩) ∧
    (∀ (call : Nat → ApiResult) (msg1 msg2 : String),
      call 1 = ApiResult.err "TooManyRequestsException" msg1 →
      call 2 = ApiResult.err "TooManyRequestsException" msg2 →
      call 3 = ApiResult.ok →
      apiGatewayDeleteWithRetry call
        = ⟨3, [60000, 120000],
            [Ev.next (msg1 ++ ". Will retry..."), Ev.next (msg2 ++ ". Will retry...")],
            Except.ok ()⟩) ∧
    (∀ call : Nat → ApiResult, (apiGatewayDeleteWithRetry call).attempts ≤ 4) := by
  refine ⟨?_, ?_, ?_, ?_⟩
  · intro call code msg hc h1
    rw [apiGatewayDeleteWithRetry]
    exact pRetryGo_abort_eq call 60000 2 1 3 code msg h1 hc
  · intro call msg h
    have hceq : call = fun _ => ApiResult.err "TooManyRequestsException" msg := funext h
    subst hceq
    rfl
  · intro call msg1 msg2 h1 h2 h3
    rw [apiGatewayDeleteWithRetry,
      pRetryGo_retry_eq call 60000 2 1 2 3 msg1 h1 rfl,
      pRetryGo_retry_eq call 60000 2 2 1 2 msg2 h2 rfl,
      pRetryGo_ok_eq call 60000 2 3 1 h3]
    rfl
  · intro call
    exact pRetryGo_attempts_le call 60000 2 3 1

/-- Oracle on which every attempt is rate-limited. -/
def allTmrCall : Nat → ApiResult :=
  fun _ => ApiResult.err "TooManyRequestsException" "Rate exceeded"

/-- Oracle whose first attempt fails with a non-retryable class. -/
def abortCall : Nat → ApiResult :=
  fun _ => ApiResult.err "AccessDenied" "denied"

/-- C2 counterexample: under sustained rate limiting the wrapper
makes 4 attempts (not at most 3) with backoff gaps 60s, 120s and
240s (not just 60s then 120s), refuting the attempt bound and gap
schedule of the claim. -/
theorem apigw_retry_exceeds_three_attempts :
    (apiGatewayDeleteWithRetry allTmrCall).attempts = 4 ∧
    (apiGatewayDeleteWithRetry allTmrCall).delays = [60000, 120000, 240000] :=
  ⟨rfl, rfl⟩

/-- Witness for the amended C2 theorem: the abort branch evaluated on
a concrete non-retryable oracle, and the exhaustion branch evaluated
on a concrete always-rate-limited oracle. -/
theorem apigw_retry_policy_witness :
    apiGatewayDeleteWithRetry abortCall
      = ⟨1, [], [], Except.error ("AccessDenied", "denied")⟩ ∧
    apiGatewayDeleteWithRetry allTmrCall
      = ⟨4, [60000, 120000, 240000],
          [Ev.next ("Rate exceeded" ++ ". Will retry..."),
           Ev.next ("Rate exceeded" ++ ". Will retry..."),
           Ev.next ("Rate exceeded" ++ ". Will retry..."),
           Ev.next ("Rate exceeded" ++ ". Will retry...")],
          Except.error ("TooManyRequestsException", "Rate exceeded")⟩ :=
  ⟨apigw_retry_policy.1 abortCall "AccessDenied" "denied" (by decide) rfl,
   apigw_retry_policy.2.1 allTmrCall "Rate exceeded" (fun _ => rfl)⟩

/-- Oracle under which deleting the function named `f1` fails. -/
def del1 : String → Except String Unit :=
  fun f => if f = "f1" then Except.error "boom" else Except.ok ()

/-- C3 counterexample: in the lambda task, when the delete call for
the first item raises an unrecoverable error, no failure signal is
emitted on the progress stream (the rejection is never routed to
`observer.error`): the event trace contains zero error events, even
though later items are indeed not attempted. -/
theorem lambda_task_error_not_signalled :
    del1 "f1" = Except.error "boom" ∧
    (lambdaTaskRun del1 ["f1", "f2"]).1.countP isErrorEv = 0 ∧
    (lambdaTaskRun del1 ["f1", "f2"]).2 = ["f1"] :=
  ⟨rfl, rfl, rfl⟩

/-- C3 amended: when a deletion protocol raises an unrecoverable
error, no further items of that task are attempted; but only the
cloudfront task's delete step signals the failure on the progress
stream (with the message preserved verbatim) — the lambda task (like
the other kinds) emits no failure signal and never completes, its
rejection escaping the progress stream entirely. -/
theorem task_failure_stops_items :
    (∀ (del : String → Except String Unit) (f msg : String) (rest : List String),
      del f = Except.error msg →
      (lambdaTaskRun del (f :: rest)).2 = [f] ∧
      (lambdaTaskRun del (f :: rest)).1.countP isErrorEv = 0 ∧
      Ev.complete ∉ (lambdaTaskRun del (f :: rest)).1) ∧
    (∀ (cfg : String → DistConfig) (del : String → Except String Unit)
        (idd dom msg : String) (rest : List (String × String)),
      (cfg idd).Enabled = false → del idd = Except.error msg →
      (cfTaskRun cfg del ((idd, dom) :: rest)).1.getLast? = some (Ev.error msg) ∧
      (cfTaskRun cfg del ((idd, dom) :: rest)).2 = cfItemCalls (cfg idd) idd ∧
      Ev.complete ∉ (cfTaskRun cfg del ((idd, dom) :: rest)).1) := by
  constructor
  · intro del f msg rest h
    refine ⟨?_, ?_, ?_⟩ <;>
      simp [lambdaTaskRun, h, isErrorEv, List.countP_cons]
  · intro cfg del idd dom msg rest hE hd
    refine ⟨?_, ?_, ?_⟩ <;>
      simp [cfTaskRun, hE, hd]

/-- Configuration oracle: every distribution already disabled. -/
def cfgD : String → DistConfig :=
  fun _ => { ETag := "e", Enabled := false }

/-- Delete oracle: every cloudfront delete call fails. -/
def delD : String → Except String Unit :=
  fun _ => Except.error "denied"

/-- Witness for the amended C3 theorem: both conjuncts applied to
concrete oracles and item lists. -/
theorem task_failure_stops_items_witness :
    ((lambdaTaskRun del1 ["f1", "f2"]).2 = ["f1"] ∧
      (lambdaTaskRun del1 ["f1", "f2"]).1.countP isErrorEv = 0 ∧
      Ev.complete ∉ (lambdaTaskRun del1 ["f1", "f2"]).1) ∧
    ((cfTaskRun cfgD delD [("d1", "dom1")]).1.getLast? = some (Ev.error "denied") ∧
      (cfTaskRun cfgD delD [("d1", "dom1")]).2 = cfItemCalls (cfgD "d1") "d1" ∧
      Ev.complete ∉ (cfTaskRun cfgD delD [("d1", "dom1")]).1) :=
  ⟨task_failure_stops_items.1 del1 "f1" "boom" ["f2"] rfl,
   task_failure_stops_items.2 cfgD delD "d1" "dom1" "denied" [] rfl rfl⟩

/-- Configuration oracle: every distribution still enabled. -/
def cfgEn : String → DistConfig :=
  fun _ => { ETag := "t1", Enabled := true }

/-- Witness for C6: both branches of the two-phase protocol applied
to concrete configuration oracles. -/
theorem cloudfront_two_phase_witness :
    ((cfItemCalls (cfgEn "d1") "d1").countP isUpdateDist = 1 ∧
      (cfItemCalls (cfgEn "d1") "d1").countP isDeleteDist = 0) ∧
    ((cfItemCalls (cfgD "d1") "d1").countP isDeleteDist = 1 ∧
      (cfItemCalls (cfgD "d1") "d1").countP isUpdateDist = 0 ∧
      CfCall.deleteDistribution "d1" (cfgD "d1").ETag ∈ cfItemCalls (cfgD "d1") "d1") :=
  ⟨(cloudfront_two_phase cfgEn "d1").1 rfl,
   (cloudfront_two_phase cfgD "d1").2.1 rfl⟩
